import Mathlib

/-!
Verification development for the Spectator-MCP configuration client.

The client edits JSON configuration files of several AI assistants.  We embed
the JSON documents these files hold, the JavaScript object semantics the code
relies on, and the document-level behaviour of each platform adapter's
`configure` / `validate` / `remove` methods, plus the CLI dispatcher's exit
behaviour.  Filesystem effects (backup copies, directory creation, writes) are
recorded as an explicit event trace; paths are opaque strings.

Conventions of the embedding:
* JSON numbers are modelled as integers (no claim depends on non-integer
  numbers or on floating point).
* A JavaScript object is a list of key/value bindings in insertion order.
  Objects produced by `JSON.parse` have pairwise distinct keys; theorems that
  need this take it as a hypothesis.
* `Object.assign(target, src)` and `target[k] = v` on a non-object target are
  modelled as the identity: on primitives the assignment is silently dropped
  (sloppy mode / discarded wrapper object), and on arrays the added named
  property never survives `JSON.stringify`.  (The one observable difference —
  `Object.keys` of an array that just received a named property — is not
  exercised by any theorem below.)
-/

set_option autoImplicit false

deriving instance DecidableEq for Except

namespace Spectator

/-- A JSON value, as held by the configuration files the tool edits. -/
inductive Json where
  | null
  | bool (b : Bool)
  | num (n : Int)
  | str (s : String)
  | arr (elems : List Json)
  | obj (fields : List (String × Json))
deriving Repr

mutual

/-- Decidable equality for `Json` (the derive handler does not support the
nested occurrence in `List`, so it is spelled out). -/
def Json.decEq : (a b : Json) → Decidable (a = b)
  | .null, .null => isTrue rfl
  | .null, .bool _ => isFalse nofun
  | .null, .num _ => isFalse nofun
  | .null, .str _ => isFalse nofun
  | .null, .arr _ => isFalse nofun
  | .null, .obj _ => isFalse nofun
  | .bool _, .null => isFalse nofun
  | .bool x, .bool y =>
    if h : x = y then isTrue (by rw [h]) else isFalse (fun hh => h (Json.bool.inj hh))
  | .bool _, .num _ => isFalse nofun
  | .bool _, .str _ => isFalse nofun
  | .bool _, .arr _ => isFalse nofun
  | .bool _, .obj _ => isFalse nofun
  | .num _, .null => isFalse nofun
  | .num _, .bool _ => isFalse nofun
  | .num x, .num y =>
    if h : x = y then isTrue (by rw [h]) else isFalse (fun hh => h (Json.num.inj hh))
  | .num _, .str _ => isFalse nofun
  | .num _, .arr _ => isFalse nofun
  | .num _, .obj _ => isFalse nofun
  | .str _, .null => isFalse nofun
  | .str _, .bool _ => isFalse nofun
  | .str _, .num _ => isFalse nofun
  | .str x, .str y =>
    if h : x = y then isTrue (by rw [h]) else isFalse (fun hh => h (Json.str.inj hh))
  | .str _, .arr _ => isFalse nofun
  | .str _, .obj _ => isFalse nofun
  | .arr _, .null => isFalse nofun
  | .arr _, .bool _ => isFalse nofun
  | .arr _, .num _ => isFalse nofun
  | .arr _, .str _ => isFalse nofun
  | .arr xs, .arr ys =>
    match Json.decEqList xs ys with
    | isTrue h => isTrue (by rw [h])
    | isFalse h => isFalse (fun hh => h (Json.arr.inj hh))
  | .arr _, .obj _ => isFalse nofun
  | .obj _, .null => isFalse nofun
  | .obj _, .bool _ => isFalse nofun
  | .obj _, .num _ => isFalse nofun
  | .obj _, .str _ => isFalse nofun
  | .obj _, .arr _ => isFalse nofun
  | .obj fs, .obj gs =>
    match Json.decEqFields fs gs with
    | isTrue h => isTrue (by rw [h])
    | isFalse h => isFalse (fun hh => h (Json.obj.inj hh))

def Json.decEqList : (xs ys : List Json) → Decidable (xs = ys)
  | [], [] => isTrue rfl
  | [], _ :: _ => isFalse nofun
  | _ :: _, [] => isFalse nofun
  | x :: xs, y :: ys =>
    match Json.decEq x y with
    | isFalse h => isFalse (fun hh => h (List.cons.inj hh).1)
    | isTrue h1 =>
      match Json.decEqList xs ys with
      | isTrue h2 => isTrue (by rw [h1, h2])
      | isFalse h2 => isFalse (fun hh => h2 (List.cons.inj hh).2)

def Json.decEqFields : (xs ys : List (String × Json)) → Decidable (xs = ys)
  | [], [] => isTrue rfl
  | [], _ :: _ => isFalse nofun
  | _ :: _, [] => isFalse nofun
  | (k, v) :: xs, (k2, v2) :: ys =>
    if hk : k = k2 then
      match Json.decEq v v2 with
      | isFalse h =>
        isFalse (fun hh => h (congrArg Prod.snd (List.cons.inj hh).1))
      | isTrue hv =>
        match Json.decEqFields xs ys with
        | isTrue h2 => isTrue (by rw [hk, hv, h2])
        | isFalse h2 => isFalse (fun hh => h2 (List.cons.inj hh).2)
    else
      isFalse (fun hh => hk (congrArg Prod.fst (List.cons.inj hh).1))

end

instance : DecidableEq Json := Json.decEq

/-- First binding of `key` in a JavaScript object's field list (`o[key]`);
`none` models `undefined`. -/
def objGet : List (String × Json) → String → Option Json
  | [], _ => none
  | (k, v) :: rest, key => if k = key then some v else objGet rest key

/-- JavaScript property assignment `o[key] = val` on an object: replace the
binding in place if the key is present, otherwise append it. -/
def objSet : List (String × Json) → String → Json → List (String × Json)
  | [], key, val => [(key, val)]
  | (k, v) :: rest, key, val =>
    if k = key then (k, val) :: rest else (k, v) :: objSet rest key val

/-- JavaScript `delete o[key]`: drop the binding of `key`. -/
def objDelete : List (String × Json) → String → List (String × Json)
  | [], _ => []
  | (k, v) :: rest, key => if k = key then rest else (k, v) :: objDelete rest key

/-- JavaScript truthiness of a JSON value. -/
def truthy : Json → Bool
  | .null => false
  | .bool b => b
  | .num n => n != 0
  | .str s => s != ""
  | .arr _ => true
  | .obj _ => true

/-- Truthiness of a possibly-`undefined` value (`none` = `undefined`). -/
def truthyOpt : Option Json → Bool
  | none => false
  | some v => truthy v

/-- JS property read `v[k]` for the property names this tool uses: on objects,
the first binding of `k`; on every other value, `undefined`. -/
def jsGet : Json → String → Option Json
  | .obj fields, k => objGet fields k
  | _, _ => none

/-- Two-step property read `v[k1][k2]` guarded the way the sources guard it
(by `&&`-chains, so no TypeError can fire). -/
def jsGet2 (v : Json) (k1 k2 : String) : Option Json :=
  match jsGet v k1 with
  | none => none
  | some w => jsGet w k2

/-- JS property assignment `v[k] = x`: updates objects, is dropped on every
other value (see the header comment). -/
def jsSetField : Json → String → Json → Json
  | .obj fields, k, v => .obj (objSet fields k v)
  | other, _, _ => other

/-- JS `delete v[k]`: removes the binding on objects, no-op elsewhere. -/
def jsDeleteField : Json → String → Json
  | .obj fields, k => .obj (objDelete fields k)
  | other, _ => other

/-- Model of `Object.keys(v)`: field names of an object; index strings of a string or
an array; empty for the remaining primitives. -/
def jsKeys : Json → List String
  | .obj fields => fields.map Prod.fst
  | .str s => (List.range s.length).map (fun i => toString i)
  | .arr xs => (List.range xs.length).map (fun i => toString i)
  | _ => []

/-- Property read `b[k]` where the base may be `undefined` (`none`):
reading a property of `undefined` or `null` throws a TypeError. -/
def jsIndex : Option Json → String → Except String (Option Json)
  | none, k => .error ("TypeError: Cannot read properties of undefined (reading " ++ k ++ ")")
  | some .null, k => .error ("TypeError: Cannot read properties of null (reading " ++ k ++ ")")
  | some v, k => .ok (jsGet v k)

/-- Model of `Object.keys(b)` where the base may be `undefined`: throws on
`undefined` and `null`. -/
def jsKeysE : Option Json → Except String (List String)
  | none => .error "TypeError: Cannot convert undefined or null to object"
  | some .null => .error "TypeError: Cannot convert undefined or null to object"
  | some v => .ok (jsKeys v)

/-- Model of `Object.assign(target, {k: v})` where the target may be `undefined`:
throws on `undefined`/`null`, otherwise updates per `jsSetField`. -/
def jsAssign (target : Option Json) (k : String) (v : Json) : Except String Json :=
  match target with
  | none => .error "TypeError: Cannot convert undefined or null to object"
  | some .null => .error "TypeError: Cannot convert undefined or null to object"
  | some t => .ok (jsSetField t k v)

/-- Whether `needle` occurs as a contiguous prefix-or-deeper infix of `hay`
(character-list level substring test). -/
def listInfix (needle : List Char) : List Char → Bool
  | [] => needle.isEmpty
  | c :: rest => needle.isPrefixOf (c :: rest) || listInfix needle rest

/-- Whether `needle` occurs as a contiguous substring of `hay`. -/
def strContains (hay needle : String) : Bool :=
  listInfix needle.toList hay.toList

mutual
/-- Whether the string `k` occurs as a substring of any string literal or
object key anywhere in a JSON value (i.e. whether the serialized file can
mention `k`). -/
def jsonMentions : Json → String → Bool
  | .str s, k => strContains s k
  | .arr xs, k => jsonMentionsList xs k
  | .obj fs, k => jsonMentionsFields fs k
  | _, _ => false

def jsonMentionsList : List Json → String → Bool
  | [], _ => false
  | x :: xs, k => jsonMentions x k || jsonMentionsList xs k

def jsonMentionsFields : List (String × Json) → String → Bool
  | [], _ => false
  | (key, v) :: fs, k => strContains key k || jsonMentions v k || jsonMentionsFields fs k
end

/-! ### The state of one configuration file, and filesystem events

A configuration file is either absent (`none`) or has some content.  Content
is classified by how `JSON.parse` treats it: text that parses to a document,
empty/whitespace-only text (relevant because `ClaudeCode.configure` checks
`content.trim()` before parsing), and other text that fails to parse. -/

inductive FileContent where
  /-- Content that parses as JSON to `doc`. -/
  | jsonText (doc : Json)
  /-- Empty or whitespace-only content (not valid JSON). -/
  | blank
  /-- Non-blank content that is not valid JSON. -/
  | invalid (raw : String)
deriving Repr, DecidableEq

/-- The message of the `SyntaxError` thrown by `JSON.parse` on invalid text
(the exact wording is Node's; only its presence matters to the spec). -/
def jsonParseErrorMsg (raw : String) : String :=
  "Unexpected token in JSON: " ++ raw

/-- Filesystem side effects performed on/next to one configuration file, in
order.  `unlink` is in the vocabulary so that "the file is never deleted" is a
statement about traces; no code path below emits it. -/
inductive FsEvent where
  /-- Model of `fs.copyFileSync(configPath, configPath + ".backup." + Date.now())`. -/
  | backup
  /-- Model of `fs.mkdirSync(dir, { recursive: true })`. -/
  | mkdir
  /-- Model of `fs.writeFileSync(configPath, JSON.stringify(doc, null, 2))`. -/
  | write (doc : Json)
  /-- Model of `fs.unlinkSync(configPath)` — never performed by this code. -/
  | unlink
deriving Repr, DecidableEq

/-- Model of `BasePlatform.readConfig` (src/client/src/platforms/base.js:27-38): a
missing file yields `null` (modelled `none`); a file that parses yields its
document; anything else throws an error naming the path. -/
def readConfig (configPath : String) : Option FileContent → Except String (Option Json)
  | none => .ok none
  | some (.jsonText doc) => .ok (some doc)
  | some .blank =>
    .error ("Failed to read config from " ++ configPath ++ ": " ++ jsonParseErrorMsg "")
  | some (.invalid raw) =>
    .error ("Failed to read config from " ++ configPath ++ ": " ++ jsonParseErrorMsg raw)

/-- Model of `BasePlatform.backupConfig` (base.js:55-63): copy the file to a
timestamped sibling if it exists; returns the events performed and whether a
backup path (non-null) was returned. -/
def backupConfig : Option FileContent → List FsEvent × Bool
  | none => ([], false)
  | some _ => ([FsEvent.backup], true)

/-- Model of `BasePlatform.writeConfig` (base.js:41-52): create the parent directory if
missing, then write the serialized document. -/
def writeConfig (dirExists : Bool) (doc : Json) : List FsEvent :=
  (if dirExists then [] else [FsEvent.mkdir]) ++ [FsEvent.write doc]

/-! ### The Spectator server entry -/

/-- The registry key this tool owns. -/
def serverName : String := "spectator-voice-memory"

/-- URL prefix of the remote MCP endpoint; the API key is appended. -/
def serverUrlPrefix : String := "https://spectatorcontext.com/mcp-server/mcp/"

/-- The entry value written for `spectator-voice-memory`
(`BasePlatform.getMcpServerConfig`, base.js:13-24, and the identical inline
object in `ClaudeCode.configure`). -/
def spectatorEntry (apiKey : String) : Json :=
  .obj [("command", .str "npx"),
        ("args", .arr [.str "-y", .str "mcp-remote", .str (serverUrlPrefix ++ apiKey)])]

/-- Model of `BasePlatform.getMcpServerConfig` returns the entry wrapped under its
name, ready for `Object.assign`. -/
def getMcpServerConfig (apiKey : String) : Json :=
  .obj [(serverName, spectatorEntry apiKey)]

/-! ### configure -/

/-- What a `configure` call returns.  The adapters disagree: Cursor and
Windsurf return `{updated, hasOtherServers}` where `updated` is the raw
entry lookup (an object when present, `undefined` when not); Claude Code
returns `{updated: !!…, hasOtherServers, configPath}` with a real boolean;
Claude Desktop, VS Code and Cline return the bare value `true`. -/
inductive ConfigureRet where
  | plainTrue
  | cursorRecord (updated : Option Json) (hasOtherServers : Bool)
  | claudeCodeRecord (updated : Bool) (hasOtherServers : Bool) (configPath : String)
deriving Repr, DecidableEq

/-- Result of running a `configure`: the filesystem events performed (also
those performed before an exception) and either the thrown error or the
written document together with the returned value. -/
structure ConfigureOutcome where
  events : List FsEvent
  outcome : Except String (Json × ConfigureRet)
deriving Repr, DecidableEq

/-- Model of `CursorPlatform.configure` (and the identical `WindsurfPlatform.configure`):
read (`|| {}`), ensure `mcpServers`, look the entry up, back up only when the
entry was already there, `Object.assign` the new entry in, write. -/
def cursorConfigure (configPath : String) (file : Option FileContent) (dirExists : Bool)
    (apiKey : String) : ConfigureOutcome :=
  match readConfig configPath file with
  | .error e => ⟨[], .error e⟩
  | .ok parsed =>
    -- let config = await this.readConfig(configPath) || {};
    let config1 : Json := if truthyOpt parsed then parsed.getD (.obj []) else .obj []
    -- if (!config.mcpServers) { config.mcpServers = {}; }
    let config2 : Json :=
      if truthyOpt (jsGet config1 "mcpServers") then config1
      else jsSetField config1 "mcpServers" (.obj [])
    -- const isAlreadyConfigured = config.mcpServers['spectator-voice-memory'];
    match jsIndex (jsGet config2 "mcpServers") serverName with
    | .error e => ⟨[], .error e⟩
    | .ok isAlreadyConfigured =>
      -- if (isAlreadyConfigured) { const backupPath = await this.backupConfig(configPath); }
      let backupEvents : List FsEvent :=
        if truthyOpt isAlreadyConfigured then (backupConfig file).1 else []
      -- Object.assign(config.mcpServers, this.getMcpServerConfig(apiKey));
      match jsAssign (jsGet config2 "mcpServers") serverName (spectatorEntry apiKey) with
      | .error e => ⟨backupEvents, .error e⟩
      | .ok newMcp =>
        let written : Json := jsSetField config2 "mcpServers" newMcp
        -- return { updated: …, hasOtherServers: Object.keys(config.mcpServers).length > 1 };
        let hasOther : Bool := decide ((jsKeys newMcp).length > 1)
        ⟨backupEvents ++ writeConfig dirExists written,
         .ok (written, .cursorRecord isAlreadyConfigured hasOther)⟩

/-- Model of `WindsurfPlatform.configure` — source-identical merge logic to Cursor's. -/
def windsurfConfigure := cursorConfigure

/-- Model of `VSCodePlatform.configure` (and the identical `ClaudePlatform.configure`
and `ClinePlatform.configure`): back up UNCONDITIONALLY whenever the file
exists — before even reading it — then read, ensure `mcpServers`,
`Object.assign`, write, and return the bare value `true`. -/
def vscodeConfigure (configPath : String) (file : Option FileContent) (dirExists : Bool)
    (apiKey : String) : ConfigureOutcome :=
  -- const backupPath = await this.backupConfig(configPath);
  let backupEvents := (backupConfig file).1
  match readConfig configPath file with
  | .error e => ⟨backupEvents, .error e⟩
  | .ok parsed =>
    let config1 : Json := if truthyOpt parsed then parsed.getD (.obj []) else .obj []
    let config2 : Json :=
      if truthyOpt (jsGet config1 "mcpServers") then config1
      else jsSetField config1 "mcpServers" (.obj [])
    match jsAssign (jsGet config2 "mcpServers") serverName (spectatorEntry apiKey) with
    | .error e => ⟨backupEvents, .error e⟩
    | .ok newMcp =>
      let written : Json := jsSetField config2 "mcpServers" newMcp
      ⟨backupEvents ++ writeConfig dirExists written, .ok (written, .plainTrue)⟩

/-- Model of `ClaudePlatform.configure` — source-identical merge logic to VS Code's. -/
def claudeConfigure := vscodeConfigure

/-- Model of `ClinePlatform.configure` — source-identical merge logic to VS Code's. -/
def clineConfigure := vscodeConfigure

/-- Model of `ClaudeCode.configure` (claudecode.js:12-57): make the directory first,
read with its own parser (missing or blank content means `{}`, invalid
content throws the raw `SyntaxError`), ensure `mcpServers`, compute
`hasOtherServers` BEFORE the insert as "some key other than the entry's
exists", `updated` as `!!` of the entry lookup, assign the entry directly,
write.  It never calls `backupConfig`. -/
def claudecodeConfigure (configPath : String) (file : Option FileContent) (dirExists : Bool)
    (apiKey : String) : ConfigureOutcome :=
  -- if (!fs.existsSync(configDir)) { fs.mkdirSync(configDir, { recursive: true }); }
  let mkdirEvents : List FsEvent := if dirExists then [] else [FsEvent.mkdir]
  -- let config = {}; if (exists) { … if (content.trim()) { config = JSON.parse(content) } }
  match (match file with
         | none => Except.ok (Json.obj [])
         | some .blank => Except.ok (Json.obj [])
         | some (.jsonText d) => Except.ok d
         | some (.invalid raw) => Except.error (jsonParseErrorMsg raw)) with
  | .error e => ⟨mkdirEvents, .error e⟩
  | .ok config1 =>
    -- if (!config.mcpServers) { config.mcpServers = {}; }
    let config2 : Json :=
      if truthyOpt (jsGet config1 "mcpServers") then config1
      else jsSetField config1 "mcpServers" (.obj [])
    -- const hasOtherServers = Object.keys(config.mcpServers)
    --                           .filter(k => k !== 'spectator-voice-memory').length > 0;
    match jsKeysE (jsGet config2 "mcpServers") with
    | .error e => ⟨mkdirEvents, .error e⟩
    | .ok keys =>
      let hasOtherServers : Bool := decide ((keys.filter (fun k => k != serverName)).length > 0)
      -- const isUpdated = !!config.mcpServers['spectator-voice-memory'];
      let isUpdated : Bool := truthyOpt (jsGet ((jsGet config2 "mcpServers").getD .null) serverName)
      -- config.mcpServers['spectator-voice-memory'] = { command: 'npx', args: […] };
      let written : Json :=
        jsSetField config2 "mcpServers"
          (jsSetField ((jsGet config2 "mcpServers").getD .null) serverName (spectatorEntry apiKey))
      -- fs.writeFileSync(configPath, JSON.stringify(config, null, 2));
      ⟨mkdirEvents ++ [FsEvent.write written],
       .ok (written, .claudeCodeRecord isUpdated hasOtherServers configPath)⟩

/-! ### remove -/

/-- One iteration of the scope loop in `CursorPlatform.remove` /
`VSCodePlatform.remove` (part_003:83-107, vscode.js:84-108): skip a missing
file; read (a parse failure propagates); if
`config && config.mcpServers && config.mcpServers['spectator-voice-memory']`
then delete the entry and rewrite the file.  The file exists whenever it is
rewritten, so its parent directory does too (`writeConfig` makes no `mkdir`). -/
def removeScope (configPath : String) (file : Option FileContent) :
    List FsEvent × Except String Bool :=
  match file with
  | none => ([], .ok false)
  | some fc =>
    match readConfig configPath (some fc) with
    | .error e => ([], .error e)
    | .ok none => ([], .ok false)   -- readConfig yields null only for a missing file; unreachable here
    | .ok (some config) =>
      if truthy config && truthyOpt (jsGet config "mcpServers")
          && truthyOpt (jsGet2 config "mcpServers" serverName) then
        -- delete config.mcpServers['spectator-voice-memory']; await this.writeConfig(…);
        let written : Json :=
          jsSetField config "mcpServers"
            (jsDeleteField ((jsGet config "mcpServers").getD .null) serverName)
        (writeConfig true written, .ok true)
      else ([], .ok false)

/-- Model of `CursorPlatform.remove` / `VSCodePlatform.remove`: try the global scope,
then the project scope; report `true` if either file changed.  An exception
from a scope's read aborts the loop and propagates. -/
def cursorRemove (gPath pPath : String) (g p : Option FileContent) :
    List FsEvent × Except String Bool :=
  match removeScope gPath g with
  | (evs, .error e) => (evs, .error e)
  | (evs1, .ok r1) =>
    match removeScope pPath p with
    | (evs2, .error e) => (evs1 ++ evs2, .error e)
    | (evs2, .ok r2) => (evs1 ++ evs2, .ok (r1 || r2))

/-- Model of `VSCodePlatform.remove` — source-identical loop to Cursor's. -/
def vscodeRemove := cursorRemove

/-- Model of `ClaudeCode.remove` (claudecode.js:84-107): bare `return` when the file
is missing; `JSON.parse` the content (a failure is rethrown wrapped); the
condition `config.mcpServers && config.mcpServers[name]` reads
`config.mcpServers` with NO `config &&` guard (unlike the Cursor/VS Code
loop), so a file containing the JSON text `null` makes that read throw a
TypeError, caught and rethrown wrapped like the parse failure; if the entry
is present delete it, drop the then-empty `mcpServers` object, and rewrite;
the function's value is always `undefined`. -/
def claudecodeRemove (file : Option FileContent) : List FsEvent × Except String Unit :=
  match file with
  | none => ([], .ok ())
  | some fc =>
    match (match fc with
           | .jsonText d => Except.ok d
           | .blank => Except.error (jsonParseErrorMsg "")
           | .invalid raw => Except.error (jsonParseErrorMsg raw)) with
    | .error e => ([], .error ("Failed to remove configuration: " ++ e))
    | .ok config =>
      -- if (config.mcpServers && config.mcpServers['spectator-voice-memory']) — the
      -- first read is unguarded: `null.mcpServers` throws inside the try block
      match jsIndex (some config) "mcpServers" with
      | .error e => ([], .error ("Failed to remove configuration: " ++ e))
      | .ok mcp =>
        if truthyOpt mcp && truthyOpt (jsGet2 config "mcpServers" serverName) then
          let mcpAfter : Json := jsDeleteField ((jsGet config "mcpServers").getD .null) serverName
          -- if (Object.keys(config.mcpServers).length === 0) { delete config.mcpServers; }
          let written : Json :=
            if (jsKeys mcpAfter).length = 0 then jsDeleteField config "mcpServers"
            else jsSetField config "mcpServers" mcpAfter
          ([FsEvent.write written], .ok ())
        else ([], .ok ())

/-! ### validate -/

/-- What a `validate` call returns: the `valid` flag, the `error` message
field when present, and (for the two-scope adapters) the `scope` field. -/
structure ValidateRes where
  valid : Bool
  error : Option String
  scope : Option String
deriving Repr, DecidableEq

/-- The single-scope `validate` shared (up to the not-found message) by
`WindsurfPlatform`, `ClaudePlatform` and `ClinePlatform`: missing file means
`{valid:false, error:notFoundMsg}`; a read failure (or the TypeError from
probing `null.mcpServers`) is caught and reported; otherwise the entry's
presence decides. -/
def singleScopeValidate (notFoundMsg : String) (configPath : String)
    (file : Option FileContent) : ValidateRes :=
  match file with
  | none => ⟨false, some notFoundMsg, none⟩
  | some fc =>
    match readConfig configPath (some fc) with
    | .error e => ⟨false, some e, none⟩
    | .ok parsed =>
      -- if (!config.mcpServers || !config.mcpServers['spectator-voice-memory']) { … }
      match jsIndex parsed "mcpServers" with
      | .error e => ⟨false, some e, none⟩
      | .ok mcp =>
        if !truthyOpt mcp then ⟨false, some "Spectator MCP server not configured", none⟩
        else
          match jsIndex mcp serverName with
          | .error e => ⟨false, some e, none⟩
          | .ok entry =>
            if !truthyOpt entry then ⟨false, some "Spectator MCP server not configured", none⟩
            else ⟨true, none, none⟩

/-- Model of `WindsurfPlatform.validate` (part_004:47-62). -/
def windsurfValidate : String → Option FileContent → ValidateRes :=
  singleScopeValidate "Configuration file not found"

/-- Model of `ClaudePlatform.validate` (part_003, Claude Desktop) — same logic. -/
def claudeValidate : String → Option FileContent → ValidateRes :=
  singleScopeValidate "Configuration file not found"

/-- Model of `ClinePlatform.validate` (cline.js:45-61) — same logic, longer message. -/
def clineValidate : String → Option FileContent → ValidateRes :=
  singleScopeValidate "Configuration file not found. Cline extension may not be installed."

/-- Model of `ClaudeCode.validate` (claudecode.js:59-82): additionally checks that the
entry has truthy `command` and `args` fields; every exception inside the
`try` is caught and reported as `Configuration error: …`. -/
def claudecodeValidate (file : Option FileContent) : ValidateRes :=
  match file with
  | none => ⟨false, some "Configuration file not found", none⟩
  | some fc =>
    match (match fc with
           | .jsonText d => Except.ok d
           | .blank => Except.error (jsonParseErrorMsg "")
           | .invalid raw => Except.error (jsonParseErrorMsg raw)) with
    | .error e => ⟨false, some ("Configuration error: " ++ e), none⟩
    | .ok config =>
      match jsIndex (some config) "mcpServers" with
      | .error e => ⟨false, some ("Configuration error: " ++ e), none⟩
      | .ok mcp =>
        if !truthyOpt mcp then ⟨false, some "Spectator MCP not configured", none⟩
        else
          match jsIndex mcp serverName with
          | .error e => ⟨false, some ("Configuration error: " ++ e), none⟩
          | .ok entry =>
            if !truthyOpt entry then ⟨false, some "Spectator MCP not configured", none⟩
            else
              let entryVal := entry.getD .null
              if !truthyOpt (jsGet entryVal "command") || !truthyOpt (jsGet entryVal "args") then
                ⟨false, some "Invalid Spectator MCP configuration", none⟩
              else ⟨true, none, none⟩

/-- One `if (path && fs.existsSync(path))` block of `CursorPlatform.validate`
/ `VSCodePlatform.validate`: the result pushed for that scope, if any (a scope
whose file parses but lacks the entry pushes nothing). -/
def scopeCheck (scope : String) (configPath : String) (file : FileContent) :
    Option ValidateRes :=
  match readConfig configPath (some file) with
  | .error e => some ⟨false, some e, some scope⟩
  | .ok parsed =>
    match jsIndex parsed "mcpServers" with
    | .error e => some ⟨false, some e, some scope⟩
    | .ok mcp =>
      if !truthyOpt mcp then none
      else
        match jsIndex mcp serverName with
        | .error e => some ⟨false, some e, some scope⟩
        | .ok entry => if truthyOpt entry then some ⟨true, none, some scope⟩ else none

/-- Model of `CursorPlatform.validate` / `VSCodePlatform.validate` (identical code):
check global then project scope, prefer the first valid result, fall back to
the first result, report "No configuration found" when neither file exists
(or neither contributed a result). -/
def cursorValidate (gPath pPath : String) (g p : Option FileContent) : ValidateRes :=
  let results : List ValidateRes :=
    (match g with | none => [] | some f => (scopeCheck "global" gPath f).toList)
      ++ (match p with | none => [] | some f => (scopeCheck "project" pPath f).toList)
  match results with
  | [] => ⟨false, some "No configuration found", none⟩
  | r :: rest =>
    match (r :: rest).find? (fun x => x.valid) with
    | some v => v
    | none => r

/-- Model of `VSCodePlatform.validate` — source-identical to Cursor's. -/
def vscodeValidate := cursorValidate

/-! ### The CLI dispatcher (src/client/bin/spectator-mcp.js)

`runSetup` is `async`.  Its arguments below abstract the environment:
`detected` is `detector.getInstalledPlatforms()`, `platformsFlag` is the
`--platforms` value after split/trim/lowercase (`none` when absent or
`"all"`), `known` says which names are in the `platforms` table, and
`succeeds` says whether a platform's `configure` resolves or rejects.  The
API key is taken as already supplied (the bare-argument path always supplies
one), so the interactive prompt is never reached. -/

/-- Exit code of a COMPLETE run of `runSetup` (bin/spectator-mcp.js:25-164),
i.e. when every `await` is allowed to resume: 1 if no platform is detected,
1 if the `--platforms` list names an uninstalled platform, 1 if no platform
configured successfully, otherwise 0 (the function returns and the process
exits cleanly).  Note this `runSetup` performs no local API-key format
check (its comment: "Skip validation for now"). -/
def runSetupFullExit (detected : List String) (platformsFlag : Option (List String))
    (known : String → Bool) (succeeds : String → Bool) : Nat :=
  if detected.isEmpty then 1
  else
    match platformsFlag with
    | some ps =>
      if ps.any (fun q => !(detected.contains q)) then 1
      else if (ps.filter known).any succeeds then 0 else 1
    | none =>
      if (detected.filter known).any succeeds then 0 else 1

/-- How far `runSetup` gets synchronously when called with an API key and no
`--platforms` flag: it either reaches a synchronous `process.exit` or
suspends at the first `await platform.configure(...)`. -/
inductive SyncOutcome where
  | exited (code : Nat)
  | suspended
deriving Repr, DecidableEq

/-- The synchronous prefix of `runSetup({apiKey, platforms: undefined, …})`:
everything up to the first `await platform.configure` is synchronous
(logging, `detector.getInstalledPlatforms()`, the loop's lookups).  With no
detected platform it exits 1; with a detected platform whose class exists it
suspends at the `await`; if every detected name misses the `platforms` table
the loop finishes synchronously with no successes and exits 1. -/
def runSetupSyncPrefix (detected : List String) (known : String → Bool) : SyncOutcome :=
  if detected.isEmpty then .exited 1
  else if detected.any known then .suspended
  else .exited 1

/-- bin/spectator-mcp.js:328-341, the single bare non-flag argument path:
```
runSetup({ apiKey: inferredApiKey, platforms: undefined, scope: 'global' });
process.exit(0);
```
`runSetup` is async and NOT awaited; `process.exit(0)` runs as soon as
`runSetup` first suspends, and `process.exit` terminates the process without
draining pending promise continuations.  So the suspended remainder of the
setup — including every configure and every `process.exit(1)` in it — never
runs, and the exit code is 0 whenever the synchronous prefix suspends. -/
def bareArgDispatchExit (detected : List String) (known : String → Bool) : Nat :=
  match runSetupSyncPrefix detected known with
  | .exited c => c
  | .suspended => 0

/-- Modelled from the spec: "Exit codes: 0 on any success (including partial
success across platforms); 1 when zero platforms are detected, an invalid
API key/format is given, all targeted platforms fail, or an unhandled error
occurs."  For a run with a well-formed key and no flag, that is: 1 when
nothing is detected or every targeted platform fails, else 0. -/
def specSetupExit (detected : List String) (succeeds : String → Bool) : Nat :=
  if detected.isEmpty then 1
  else if detected.any succeeds then 0 else 1

/-! ### Derived notions used by the claim statements -/

/-- The document every adapter writes on a fresh install (file absent):
`{"mcpServers": {"spectator-voice-memory": <entry>}}`. -/
def freshConfigDoc (apiKey : String) : Json :=
  .obj [("mcpServers", .obj [(serverName, spectatorEntry apiKey)])]

/-- Whether a file's content parses to a document whose `mcpServers` already
holds a truthy `spectator-voice-memory` entry. -/
def entryPresent : Option FileContent → Bool
  | some (.jsonText doc) => truthyOpt (jsGet2 doc "mcpServers" serverName)
  | _ => false

/-- Whether a file is absent or parses as JSON (i.e. `readConfig` does not
throw on it). -/
def parsesOrMissing : Option FileContent → Bool
  | some (.invalid _) => false
  | some .blank => false
  | _ => true

/-- Whether a file parses to the JSON value `null` — the one parseable
content on which `ClaudeCode.remove` still throws, via its unguarded
`config.mcpServers` read. -/
def isNullDoc : Option FileContent → Bool
  | some (.jsonText .null) => true
  | _ => false

def isBackup : FsEvent → Bool
  | .backup => true
  | _ => false

/-- No backup event occurs after any write event in the trace — i.e. every
backup that happens precedes every overwriting write. -/
def noBackupAfterWrite : List FsEvent → Bool
  | [] => true
  | FsEvent.write _ :: rest => rest.all (fun e => !(isBackup e)) && noBackupAfterWrite rest
  | _ :: rest => noBackupAfterWrite rest

/-- The `hasOtherServers` component of a configure's return value, when it
has one. -/
def retHasOtherServers : ConfigureRet → Option Bool
  | .plainTrue => none
  | .cursorRecord _ h => some h
  | .claudeCodeRecord _ h _ => some h

/-- The `hasOtherServers` flag a configure run reports (none on error or for
the adapters that return the bare value `true`). -/
def outcomeHasOtherServers (c : ConfigureOutcome) : Option Bool :=
  match c.outcome with
  | .ok (_, r) => retHasOtherServers r
  | .error _ => none


/-- The document-level merge step shared verbatim by every adapter's
`configure`: ensure `mcpServers` is truthy (else `{}`), then assign the entry
under its name inside it. -/
def upsertDoc (doc : Json) (apiKey : String) : Json :=
  let config2 := if truthyOpt (jsGet doc "mcpServers") then doc
                 else jsSetField doc "mcpServers" (.obj [])
  jsSetField config2 "mcpServers"
    (jsSetField ((jsGet config2 "mcpServers").getD .null) serverName (spectatorEntry apiKey))


/-- C6 counterexample document: a configuration whose entry the user edited. -/
def c6OriginalDoc : Json := .obj [("mcpServers", .obj [(serverName, .str "user-edited")])]

/-- C10 counterexample document: `mcpServers` is the one-character string
`"a"` — a perfectly parseable JSON document the code accepts. -/
def c10Doc : Json := .obj [("mcpServers", .str "a")]

/-! ### Lemmas about the object operations -/

theorem objGet_objSet_self (o : List (String × Json)) (k : String) (v : Json) :
    objGet (objSet o k v) k = some v := by
  induction o with
  | nil => simp [objGet, objSet]
  | cons p rest ih =>
    obtain ⟨k', v'⟩ := p
    by_cases h : k' = k
    · simp [objSet, h, objGet]
    · simp [objSet, h, objGet, ih]

theorem objGet_objSet_ne (o : List (String × Json)) (k k' : String) (v : Json)
    (h : k' ≠ k) : objGet (objSet o k v) k' = objGet o k' := by
  induction o with
  | nil => simp [objGet, objSet, Ne.symm h]
  | cons p rest ih =>
    obtain ⟨k2, v2⟩ := p
    by_cases h2 : k2 = k
    · subst h2
      simp [objSet, objGet, Ne.symm h]
    · simp only [objSet, if_neg h2, objGet]
      by_cases h3 : k2 = k'
      · simp [h3]
      · simp [h3, ih]

theorem objSet_of_objGet_eq (o : List (String × Json)) (k : String) (v : Json)
    (h : objGet o k = some v) : objSet o k v = o := by
  induction o with
  | nil => simp [objGet] at h
  | cons p rest ih =>
    obtain ⟨k', v'⟩ := p
    by_cases h2 : k' = k
    · subst h2
      simp only [objGet, if_true, eq_self_iff_true, Option.some.injEq] at h
      simp [objSet, h]
    · simp only [objGet, if_neg h2] at h
      simp [objSet, h2, ih h]

theorem objSet_objSet (o : List (String × Json)) (k : String) (v w : Json) :
    objSet (objSet o k v) k w = objSet o k w := by
  induction o with
  | nil => simp [objSet]
  | cons p rest ih =>
    obtain ⟨k', v'⟩ := p
    by_cases h : k' = k
    · simp [objSet, h]
    · simp [objSet, h, ih]

theorem objSet_of_objGet_none (o : List (String × Json)) (k : String) (v : Json)
    (h : objGet o k = none) : objSet o k v = o ++ [(k, v)] := by
  induction o with
  | nil => simp [objSet]
  | cons p rest ih =>
    obtain ⟨k', v'⟩ := p
    by_cases h2 : k' = k
    · simp [objGet, h2] at h
    · simp only [objGet, if_neg h2] at h
      simp [objSet, h2, ih h]

theorem objDelete_append_of_objGet_none (o : List (String × Json)) (k : String) (v : Json)
    (h : objGet o k = none) : objDelete (o ++ [(k, v)]) k = o := by
  induction o with
  | nil => simp [objDelete]
  | cons p rest ih =>
    obtain ⟨k', v'⟩ := p
    by_cases h2 : k' = k
    · simp [objGet, h2] at h
    · simp only [objGet, if_neg h2] at h
      simp [objDelete, h2, ih h]

theorem objGet_eq_none_iff (o : List (String × Json)) (k : String) :
    objGet o k = none ↔ k ∉ o.map Prod.fst := by
  induction o with
  | nil => simp [objGet]
  | cons p rest ih =>
    obtain ⟨k', v'⟩ := p
    simp only [List.map_cons, List.mem_cons]
    by_cases h : k' = k
    · subst h
      simp [objGet]
    · simp [objGet, h, ih, Ne.symm h]

theorem map_fst_objSet_of_mem (o : List (String × Json)) (k : String) (v : Json)
    (h : k ∈ o.map Prod.fst) : (objSet o k v).map Prod.fst = o.map Prod.fst := by
  induction o with
  | nil => simp at h
  | cons p rest ih =>
    obtain ⟨k', v'⟩ := p
    by_cases h2 : k' = k
    · simp [objSet, h2]
    · simp only [List.map_cons, List.mem_cons] at h
      rcases h with h | h
      · exact absurd h.symm h2
      · simp [objSet, h2, ih h]

theorem map_fst_objSet_of_not_mem (o : List (String × Json)) (k : String) (v : Json)
    (h : k ∉ o.map Prod.fst) : (objSet o k v).map Prod.fst = o.map Prod.fst ++ [k] := by
  rw [objSet_of_objGet_none o k v ((objGet_eq_none_iff o k).mpr h)]
  simp

theorem filter_ne_of_not_mem (l : List String) (a : String) (h : a ∉ l) :
    l.filter (fun k => k != a) = l := by
  apply List.filter_eq_self.mpr
  intro b hb
  exact bne_iff_ne.mpr (fun hba => h (hba ▸ hb))

theorem length_filter_ne_of_nodup (l : List String) (a : String) (hnd : l.Nodup)
    (hmem : a ∈ l) : (l.filter (fun k => k != a)).length = l.length - 1 := by
  induction l with
  | nil => simp at hmem
  | cons x xs ih =>
    have hnd' := List.nodup_cons.mp hnd
    by_cases hxa : x = a
    · subst hxa
      rw [List.filter_cons, if_neg (by simp)]
      rw [filter_ne_of_not_mem xs x hnd'.1]
      simp
    · have hmem' : a ∈ xs := by
        rcases List.mem_cons.mp hmem with h | h
        · exact absurd h.symm hxa
        · exact h
      have hlen := ih hnd'.2 hmem'
      have hpos : 0 < xs.length := List.length_pos.mpr (List.ne_nil_of_mem hmem')
      rw [List.filter_cons, if_pos (bne_iff_ne.mpr hxa)]
      simp only [List.length_cons, hlen]
      omega

/-! ### Reduction lemmas for the configure paths -/


theorem truthyOpt_none : truthyOpt none = false := rfl

theorem truthyOpt_some (v : Json) : truthyOpt (some v) = truthy v := rfl

theorem truthy_obj (fs : List (String × Json)) : truthy (.obj fs) = true := rfl

theorem truthy_null : truthy .null = false := rfl

theorem jsGet_obj (fs : List (String × Json)) (k : String) :
    jsGet (.obj fs) k = objGet fs k := rfl

theorem jsSetField_obj (fs : List (String × Json)) (k : String) (v : Json) :
    jsSetField (.obj fs) k v = .obj (objSet fs k v) := rfl

theorem jsIndex_of_truthy (v : Json) (hv : truthy v = true) (k : String) :
    jsIndex (some v) k = .ok (jsGet v k) := by
  cases v <;> simp_all [truthy, jsIndex]

theorem jsIndex_of_ne_null (v : Json) (hv : v ≠ .null) (k : String) :
    jsIndex (some v) k = .ok (jsGet v k) := by
  cases v <;> simp_all [jsIndex]

theorem jsIndex_some_obj (fs : List (String × Json)) (k : String) :
    jsIndex (some (.obj fs)) k = .ok (objGet fs k) := rfl

theorem jsAssign_of_truthy (v : Json) (hv : truthy v = true) (k : String) (x : Json) :
    jsAssign (some v) k x = .ok (jsSetField v k x) := by
  cases v <;> simp_all [truthy, jsAssign]

theorem jsKeysE_of_truthy (v : Json) (hv : truthy v = true) :
    jsKeysE (some v) = .ok (jsKeys v) := by
  cases v <;> simp_all [truthy, jsKeysE]

theorem cursorConfigure_obj_outcome (p key : String) (d : Bool) (o : List (String × Json)) :
    ∃ r, (cursorConfigure p (some (.jsonText (.obj o))) d key).outcome
      = Except.ok (upsertDoc (.obj o) key, r) := by
  match hmc : objGet o "mcpServers" with
  | none =>
    refine ⟨.cursorRecord none false, ?_⟩
    simp [cursorConfigure, upsertDoc, readConfig, jsGet_obj, hmc, truthyOpt_none,
      truthyOpt_some, truthy_obj, jsSetField_obj, jsIndex, jsAssign,
      objGet_objSet_self, jsKeys, objSet, objGet, serverName]
  | some v =>
    by_cases htv : truthy v = true
    · refine ⟨.cursorRecord (jsGet v serverName)
        (decide ((jsKeys (jsSetField v serverName (spectatorEntry key))).length > 1)), ?_⟩
      simp [cursorConfigure, upsertDoc, readConfig, jsGet_obj, hmc, truthyOpt_some,
        truthy_obj, htv, jsIndex_of_truthy v htv, jsAssign_of_truthy v htv]
    · refine ⟨.cursorRecord none false, ?_⟩
      simp [cursorConfigure, upsertDoc, readConfig, jsGet_obj, hmc, truthyOpt_some,
        truthyOpt_none, truthy_obj, Bool.eq_false_iff.mpr htv, jsSetField_obj,
        jsIndex, jsAssign, objGet_objSet_self, jsKeys, objSet, objGet, serverName]

theorem vscodeConfigure_obj_outcome (p key : String) (d : Bool) (o : List (String × Json)) :
    (vscodeConfigure p (some (.jsonText (.obj o))) d key).outcome
      = Except.ok (upsertDoc (.obj o) key, .plainTrue) := by
  match hmc : objGet o "mcpServers" with
  | none =>
    simp [vscodeConfigure, upsertDoc, readConfig, jsGet_obj, hmc, truthyOpt_none,
      truthyOpt_some, truthy_obj, jsSetField_obj, jsAssign, objGet_objSet_self]
  | some v =>
    by_cases htv : truthy v = true
    · simp [vscodeConfigure, upsertDoc, readConfig, jsGet_obj, hmc, truthyOpt_some,
        truthy_obj, htv, jsAssign_of_truthy v htv]
    · simp [vscodeConfigure, upsertDoc, readConfig, jsGet_obj, hmc, truthyOpt_some,
        truthyOpt_none, truthy_obj, Bool.eq_false_iff.mpr htv, jsSetField_obj,
        jsAssign, objGet_objSet_self]

theorem claudecodeConfigure_obj_outcome (p key : String) (d : Bool) (o : List (String × Json)) :
    ∃ r, (claudecodeConfigure p (some (.jsonText (.obj o))) d key).outcome
      = Except.ok (upsertDoc (.obj o) key, r) := by
  match hmc : objGet o "mcpServers" with
  | none =>
    refine ⟨.claudeCodeRecord false false p, ?_⟩
    simp [claudecodeConfigure, upsertDoc, jsGet_obj, hmc, truthyOpt_none,
      truthyOpt_some, truthy_obj, jsSetField_obj, jsKeysE, objGet_objSet_self,
      jsKeys, objSet, objGet, serverName]
  | some v =>
    by_cases htv : truthy v = true
    · refine ⟨.claudeCodeRecord (truthyOpt (jsGet v serverName))
        (decide (((jsKeys v).filter (fun k => k != serverName)).length > 0)) p, ?_⟩
      simp [claudecodeConfigure, upsertDoc, jsGet_obj, hmc, truthyOpt_some,
        truthy_obj, htv, jsKeysE_of_truthy v htv]
    · refine ⟨.claudeCodeRecord false false p, ?_⟩
      simp [claudecodeConfigure, upsertDoc, jsGet_obj, hmc, truthyOpt_some,
        truthyOpt_none, truthy_obj, Bool.eq_false_iff.mpr htv, jsSetField_obj,
        jsKeysE, objGet_objSet_self, jsKeys, objSet, objGet, serverName]

theorem jsGet_upsertDoc_ne (o : List (String × Json)) (key k : String)
    (hk : k ≠ "mcpServers") : jsGet (upsertDoc (.obj o) key) k = objGet o k := by
  unfold upsertDoc
  match hmc : objGet o "mcpServers" with
  | none =>
    simp [jsGet_obj, hmc, truthyOpt_none, jsSetField_obj, objGet_objSet_self,
      objSet_objSet, objGet_objSet_ne _ _ _ _ hk]
  | some v =>
    by_cases htv : truthy v = true
    · cases v <;> simp_all [jsGet_obj, truthyOpt_some, truthy, jsSetField,
        objGet_objSet_ne _ _ _ _ hk]
    · simp [jsGet_obj, hmc, truthyOpt_some, Bool.eq_false_iff.mpr htv, jsSetField_obj,
        objGet_objSet_self, objSet_objSet, objGet_objSet_ne _ _ _ _ hk]

theorem jsGet2_upsertDoc_sibling (o m : List (String × Json)) (key k2 : String)
    (hm : objGet o "mcpServers" = some (.obj m)) (hk2 : k2 ≠ serverName) :
    jsGet2 (upsertDoc (.obj o) key) "mcpServers" k2 = objGet m k2 := by
  unfold upsertDoc
  simp [jsGet_obj, hm, truthyOpt_some, truthy_obj, jsSetField_obj, jsGet2,
    objGet_objSet_self, objGet_objSet_ne _ _ _ _ hk2]



end Spectator

/-! ### The claims -/

namespace Spectator

/-- C3 counterexample: `BasePlatform.readConfig` on a missing file returns
`null` (`none`), not the empty document `{}` the claim states. -/
theorem readConfig_missing_returns_null_not_empty :
    readConfig "/home/u/.cursor/mcp.json" none = Except.ok none ∧
    (Except.ok none : Except String (Option Json)) ≠ Except.ok (some (Json.obj [])) := by
  exact ⟨rfl, by simp⟩

/-- C3 (amended): `readConfig` on a missing file returns `null` (not an
error), which its callers coerce to the empty document via `|| {}`; on an
existing file that is not valid JSON it throws an error whose message
contains the path, and no document is produced. -/
theorem readConfig_missing_null_malformed_error_names_path (configPath raw : String) :
    readConfig configPath none = Except.ok none ∧
    readConfig configPath (some (FileContent.invalid raw)) =
      Except.error ("Failed to read config from " ++ configPath ++ ": " ++ jsonParseErrorMsg raw) ∧
    ∃ pre post,
      "Failed to read config from " ++ configPath ++ ": " ++ jsonParseErrorMsg raw
        = pre ++ configPath ++ post := by
  refine ⟨rfl, rfl, "Failed to read config from ", ": " ++ jsonParseErrorMsg raw, ?_⟩
  rw [String.append_assoc]

/-- C7: for every adapter, `validate()` with no configuration file present
returns `valid = false` together with a non-empty error message; the models
are total functions, mirroring that every exception in the sources'
`validate` bodies is caught. -/
theorem validate_missing_config_reports_invalid (gPath pPath cPath : String) :
    cursorValidate gPath pPath none none = ⟨false, some "No configuration found", none⟩ ∧
    vscodeValidate gPath pPath none none = ⟨false, some "No configuration found", none⟩ ∧
    windsurfValidate cPath none = ⟨false, some "Configuration file not found", none⟩ ∧
    claudeValidate cPath none = ⟨false, some "Configuration file not found", none⟩ ∧
    clineValidate cPath none =
      ⟨false, some "Configuration file not found. Cline extension may not be installed.", none⟩ ∧
    claudecodeValidate none = ⟨false, some "Configuration file not found", none⟩ ∧
    "No configuration found" ≠ "" ∧ "Configuration file not found" ≠ "" ∧
    "Configuration file not found. Cline extension may not be installed." ≠ "" := by
  refine ⟨rfl, rfl, rfl, rfl, rfl, rfl, by decide, by decide, by decide⟩

/-- C9 (code bug): with one detected platform whose configure fails, a
complete run of `runSetup` exits 1 (as the claim and spec prescribe), but the
single-bare-argument dispatch exits 0: it fires `process.exit(0)` as soon as
`runSetup` suspends at its first `await`, so no platform result (and no
write) ever materialises. -/
theorem bare_key_dispatch_exits_zero_despite_all_failures :
    bareArgDispatchExit ["cursor"] (fun n => n == "cursor") = 0 ∧
    runSetupFullExit ["cursor"] none (fun n => n == "cursor") (fun _ => false) = 1 ∧
    specSetupExit ["cursor"] (fun _ => false) = 1 :=
  ⟨rfl, rfl, rfl⟩

/-- C4 counterexample: on a fresh install (no file), `VSCodePlatform.configure`
returns the bare value `true` — not a record with `updated:false` (Cursor's
record, also shown, carries `updated: undefined` rather than `false`). -/
theorem vscode_fresh_configure_returns_bare_true :
    (vscodeConfigure "/u/.mcp.json" none false "abc123xyz").outcome =
      Except.ok (freshConfigDoc "abc123xyz", ConfigureRet.plainTrue) ∧
    (∀ u h, ConfigureRet.plainTrue ≠ ConfigureRet.cursorRecord u h) ∧
    (∀ u h cp, ConfigureRet.plainTrue ≠ ConfigureRet.claudeCodeRecord u h cp) ∧
    (cursorConfigure "/u/.cursor/mcp.json" none false "abc123xyz").outcome =
      Except.ok (freshConfigDoc "abc123xyz", ConfigureRet.cursorRecord none false) ∧
    (some (Json.bool false) : Option Json) ≠ none := by
  refine ⟨rfl, fun u h => by simp, fun u h cp => by simp, rfl, by simp⟩

/-- C4 (amended): for every adapter, configuring with the file and its parent
directory absent creates the directory, then writes a document whose
`mcpServers["spectator-voice-memory"]` equals the canonical entry, whose URL
argument carries the API key as a literal suffix; the adapters' returns
differ: Cursor/Windsurf return `{updated: undefined, …}`, Claude Code returns
`{updated: false, …}`, and VS Code/Claude Desktop/Cline return bare `true`. -/
theorem fresh_configure_creates_dir_writes_canonical_entry (configPath apiKey : String) :
    cursorConfigure configPath none false apiKey =
      ⟨[FsEvent.mkdir, FsEvent.write (freshConfigDoc apiKey)],
       Except.ok (freshConfigDoc apiKey, ConfigureRet.cursorRecord none false)⟩ ∧
    vscodeConfigure configPath none false apiKey =
      ⟨[FsEvent.mkdir, FsEvent.write (freshConfigDoc apiKey)],
       Except.ok (freshConfigDoc apiKey, ConfigureRet.plainTrue)⟩ ∧
    claudecodeConfigure configPath none false apiKey =
      ⟨[FsEvent.mkdir, FsEvent.write (freshConfigDoc apiKey)],
       Except.ok (freshConfigDoc apiKey, ConfigureRet.claudeCodeRecord false false configPath)⟩ ∧
    jsGet2 (freshConfigDoc apiKey) "mcpServers" serverName = some (spectatorEntry apiKey) ∧
    jsGet (spectatorEntry apiKey) "args"
      = some (Json.arr [.str "-y", .str "mcp-remote", .str (serverUrlPrefix ++ apiKey)]) ∧
    (∃ pre, serverUrlPrefix ++ apiKey = pre ++ apiKey) := by
  refine ⟨rfl, rfl, rfl, rfl, rfl, serverUrlPrefix, rfl⟩

end Spectator

namespace Spectator

/-- C2 counterexample: `VSCodePlatform.configure` (likewise Claude Desktop and
Cline) creates a backup for a file that exists but does NOT yet contain the
`spectator-voice-memory` entry — the claim says first-time configuration of an
existing file never produces a backup. -/
theorem vscode_configure_backs_up_without_entry :
    FsEvent.backup ∈
      (vscodeConfigure "/u/.mcp.json"
        (some (FileContent.jsonText (Json.obj [("foo", Json.num 1)]))) true "key123abc").events ∧
    jsGet2 (Json.obj [("foo", Json.num 1)]) "mcpServers" serverName = none := by
  refine ⟨?_, rfl⟩
  simp [vscodeConfigure, readConfig, backupConfig, truthyOpt, truthy, jsGet, objGet,
    jsSetField, objSet, jsAssign, writeConfig]

/-- C5 counterexample: `ClaudeCode.configure` never calls `backupConfig`, so
re-running configure with a second key overwrites the entry with NO backup —
the claim says every adapter backs up before the second write. -/
theorem claudecode_reconfigure_never_backs_up :
    (claudecodeConfigure "/c" (some (FileContent.jsonText (freshConfigDoc "key-one-12345")))
        true "key-two-67890").events = [FsEvent.write (freshConfigDoc "key-two-67890")] ∧
    FsEvent.backup ∉
      (claudecodeConfigure "/c" (some (FileContent.jsonText (freshConfigDoc "key-one-12345")))
        true "key-two-67890").events := by
  refine ⟨rfl, ?_⟩
  intro h
  rw [show (claudecodeConfigure "/c" (some (FileContent.jsonText (freshConfigDoc "key-one-12345")))
        true "key-two-67890").events = [FsEvent.write (freshConfigDoc "key-two-67890")] from rfl] at h
  simp at h

/-- C5 (amended): for every adapter a re-run with a different key fully
overwrites the entry (second key's URL in, first key gone from the live
document); before that second write Cursor/Windsurf and VS Code/Claude
Desktop/Cline create a backup, but Claude Code creates none. -/
theorem reconfigure_overwrites_entry_backup_policy (configPath k1 k2 : String) :
    cursorConfigure configPath none false k1 =
      ⟨[FsEvent.mkdir, FsEvent.write (freshConfigDoc k1)],
       Except.ok (freshConfigDoc k1, ConfigureRet.cursorRecord none false)⟩ ∧
    cursorConfigure configPath (some (FileContent.jsonText (freshConfigDoc k1))) true k2 =
      ⟨[FsEvent.backup, FsEvent.write (freshConfigDoc k2)],
       Except.ok (freshConfigDoc k2,
         ConfigureRet.cursorRecord (some (spectatorEntry k1)) false)⟩ ∧
    vscodeConfigure configPath (some (FileContent.jsonText (freshConfigDoc k1))) true k2 =
      ⟨[FsEvent.backup, FsEvent.write (freshConfigDoc k2)],
       Except.ok (freshConfigDoc k2, ConfigureRet.plainTrue)⟩ ∧
    claudecodeConfigure configPath (some (FileContent.jsonText (freshConfigDoc k1))) true k2 =
      ⟨[FsEvent.write (freshConfigDoc k2)],
       Except.ok (freshConfigDoc k2, ConfigureRet.claudeCodeRecord true false configPath)⟩ ∧
    (jsonMentions (freshConfigDoc k2) k1 = false →
      ∀ w r,
        (cursorConfigure configPath (some (FileContent.jsonText (freshConfigDoc k1))) true k2).outcome
          = Except.ok (w, r) →
        jsonMentions w k1 = false) := by
  refine ⟨rfl, rfl, rfl, rfl, ?_⟩
  intro hmention w r hw
  have hbase : (cursorConfigure configPath (some (FileContent.jsonText (freshConfigDoc k1)))
      true k2).outcome
      = Except.ok (freshConfigDoc k2, ConfigureRet.cursorRecord (some (spectatorEntry k1)) false) :=
    rfl
  have hw2 := hbase.symm.trans hw
  have hdoc : freshConfigDoc k2 = w := congrArg Prod.fst (Except.ok.inj hw2)
  rw [← hdoc]
  exact hmention

/-- C5 witness: concrete keys for `reconfigure_overwrites_entry_backup_policy`. -/
theorem reconfigure_overwrites_entry_backup_policy_witness :
    jsonMentions (freshConfigDoc "second-key-0002") "first-key-0001" = false :=
  (reconfigure_overwrites_entry_backup_policy "/c" "first-key-0001" "second-key-0002").2.2.2.2
    (by decide) (freshConfigDoc "second-key-0002")
    (ConfigureRet.cursorRecord (some (spectatorEntry "first-key-0001")) false) rfl

/-- C6 counterexample: when the document already contains the entry, upsert
followed by remove does NOT restore the document — the pre-existing entry is
gone (not an insertion-order artifact). -/
theorem upsert_remove_drops_preexisting_entry :
    (claudecodeConfigure "/c" (some (FileContent.jsonText c6OriginalDoc)) true "newkey1234").outcome
      = Except.ok (freshConfigDoc "newkey1234", ConfigureRet.claudeCodeRecord true false "/c") ∧
    removeScope "/c" (some (FileContent.jsonText (freshConfigDoc "newkey1234"))) =
      ([FsEvent.write (Json.obj [("mcpServers", Json.obj [])])], Except.ok true) ∧
    jsGet2 c6OriginalDoc "mcpServers" serverName = some (Json.str "user-edited") ∧
    jsGet2 (Json.obj [("mcpServers", Json.obj [])]) "mcpServers" serverName = none := by
  refine ⟨rfl, rfl, rfl, rfl⟩

/-- C8 counterexample: `CursorPlatform.remove` with an existing global config
file that is not valid JSON — no configuration containing the entry exists,
yet `remove` throws (propagating `readConfig`'s error) instead of returning
false silently. -/
theorem cursor_remove_throws_on_malformed_config :
    cursorRemove "/g" "/p" (some (FileContent.invalid "oops")) none =
      ([], Except.error ("Failed to read config from /g: " ++ jsonParseErrorMsg "oops")) ∧
    entryPresent (some (FileContent.invalid "oops")) = false ∧
    claudecodeRemove (some (FileContent.invalid "oops")) =
      ([], Except.error ("Failed to remove configuration: " ++ jsonParseErrorMsg "oops")) := by
  refine ⟨rfl, rfl, rfl⟩

/-- C10 counterexample: on `{"mcpServers": "a"}` the Cursor/Windsurf
computation (`Object.keys(config.mcpServers).length > 1` after the insert,
where the insert is dropped on a primitive and `Object.keys("a") = ["0"]`)
yields `false`, while Claude Code's pre-insert computation
(`Object.keys(…).filter(k => k !== name).length > 0`) yields `true`. -/
theorem hasOtherServers_flags_disagree_on_string_mcpServers :
    outcomeHasOtherServers (cursorConfigure "/c" (some (FileContent.jsonText c10Doc)) true "k")
      = some false ∧
    outcomeHasOtherServers (claudecodeConfigure "/c" (some (FileContent.jsonText c10Doc)) true "k")
      = some true ∧
    (some false : Option Bool) ≠ some true := by
  refine ⟨rfl, rfl, by simp⟩

end Spectator

namespace Spectator

/-- C1: for every platform adapter (Cursor/Windsurf, VS Code/Claude
Desktop/Cline, Claude Code), running configure over an existing parsed
document writes a result in which every top-level field other than
`mcpServers` and every `mcpServers` entry other than
`spectator-voice-memory` are unchanged. -/
theorem configure_preserves_unrelated_fields (configPath apiKey : String) (dirExists : Bool)
    (o : List (String × Json)) (k : String) (hk : k ≠ "mcpServers")
    (k2 : String) (hk2 : k2 ≠ serverName) (w : Json) (r : ConfigureRet)
    (hw : (cursorConfigure configPath (some (.jsonText (.obj o))) dirExists apiKey).outcome
            = Except.ok (w, r)
        ∨ (vscodeConfigure configPath (some (.jsonText (.obj o))) dirExists apiKey).outcome
            = Except.ok (w, r)
        ∨ (claudecodeConfigure configPath (some (.jsonText (.obj o))) dirExists apiKey).outcome
            = Except.ok (w, r)) :
    jsGet w k = objGet o k ∧
    (∀ m, objGet o "mcpServers" = some (.obj m) → jsGet2 w "mcpServers" k2 = objGet m k2) := by
  have hwu : w = upsertDoc (.obj o) apiKey := by
    rcases hw with hw | hw | hw
    · obtain ⟨r', hr⟩ := cursorConfigure_obj_outcome configPath apiKey dirExists o
      exact (congrArg Prod.fst (Except.ok.inj (hr.symm.trans hw))).symm
    · exact (congrArg Prod.fst (Except.ok.inj
        ((vscodeConfigure_obj_outcome configPath apiKey dirExists o).symm.trans hw))).symm
    · obtain ⟨r', hr⟩ := claudecodeConfigure_obj_outcome configPath apiKey dirExists o
      exact (congrArg Prod.fst (Except.ok.inj (hr.symm.trans hw))).symm
  subst hwu
  exact ⟨jsGet_upsertDoc_ne o apiKey k hk,
         fun m hm => jsGet2_upsertDoc_sibling o m apiKey k2 hm hk2⟩

end Spectator

namespace Spectator

/-- C1 witness: a concrete document with an unrelated top-level field `foo`
and an unrelated sibling server `other-tool`, run through Cursor's configure. -/
theorem configure_preserves_unrelated_fields_witness :
    (jsGet (upsertDoc (.obj [("foo", Json.num 1),
        ("mcpServers", Json.obj [("other-tool", Json.str "x")])]) "key123") "foo"
      = objGet [("foo", Json.num 1),
        ("mcpServers", Json.obj [("other-tool", Json.str "x")])] "foo") ∧
    (∀ m, objGet [("foo", Json.num 1),
        ("mcpServers", Json.obj [("other-tool", Json.str "x")])] "mcpServers"
          = some (.obj m) →
      jsGet2 (upsertDoc (.obj [("foo", Json.num 1),
        ("mcpServers", Json.obj [("other-tool", Json.str "x")])]) "key123")
          "mcpServers" "other-tool" = objGet m "other-tool") :=
  configure_preserves_unrelated_fields "/c" "key123" true
    [("foo", Json.num 1), ("mcpServers", Json.obj [("other-tool", Json.str "x")])]
    "foo" (by decide) "other-tool" (by decide)
    (upsertDoc (.obj [("foo", Json.num 1),
      ("mcpServers", Json.obj [("other-tool", Json.str "x")])]) "key123")
    (ConfigureRet.cursorRecord none true) (Or.inl (by decide))

end Spectator

namespace Spectator

theorem truthy_spectatorEntry (k : String) : truthy (spectatorEntry k) = true := rfl

/-- C6 (amended): when the document's `mcpServers` object does not yet hold
the entry, inserting it (as `ClaudeCode.configure` does) and then removing it
(as `CursorPlatform.remove`'s scope step, or `ClaudeCode.remove`, does)
rewrites exactly the original document — Claude Code's remove additionally
drops an `mcpServers` field that became empty, which cannot happen when the
original mapping was nonempty. -/
theorem upsert_then_remove_restores_document (p1 p2 key : String) (d : Bool)
    (o m : List (String × Json))
    (hm : objGet o "mcpServers" = some (.obj m))
    (hnone : objGet m serverName = none)
    (w : Json) (r : ConfigureRet)
    (hw : (claudecodeConfigure p1 (some (.jsonText (.obj o))) d key).outcome
            = Except.ok (w, r)) :
    removeScope p2 (some (.jsonText w)) = ([FsEvent.write (.obj o)], Except.ok true) ∧
    (m ≠ [] → claudecodeRemove (some (.jsonText w)) = ([FsEvent.write (.obj o)], Except.ok ())) := by
  obtain ⟨r', hr⟩ := claudecodeConfigure_obj_outcome p1 key d o
  have hwu : w = upsertDoc (.obj o) key :=
    (congrArg Prod.fst (Except.ok.inj (hr.symm.trans hw))).symm
  subst hwu
  have hform : upsertDoc (.obj o) key
      = .obj (objSet o "mcpServers" (.obj (objSet m serverName (spectatorEntry key)))) := by
    unfold upsertDoc
    simp [jsGet_obj, hm, truthyOpt_some, truthy_obj, jsSetField_obj]
  have hdel : objDelete (objSet m serverName (spectatorEntry key)) serverName = m := by
    rw [objSet_of_objGet_none m serverName _ hnone,
      objDelete_append_of_objGet_none m serverName _ hnone]
  have houter : objSet (objSet o "mcpServers"
      (.obj (objSet m serverName (spectatorEntry key)))) "mcpServers" (.obj m) = o := by
    rw [objSet_objSet, objSet_of_objGet_eq _ _ _ hm]
  rw [hform]
  constructor
  · unfold removeScope readConfig
    simp [jsGet_obj, jsGet2, objGet_objSet_self, truthyOpt_some, truthy_obj,
      truthy_spectatorEntry, jsSetField_obj, jsDeleteField, hdel, houter, writeConfig]
  · intro hne
    unfold claudecodeRemove
    simp only [jsIndex_some_obj, jsGet_obj, jsGet2, objGet_objSet_self, truthyOpt_some,
      truthy_obj, truthy_spectatorEntry, Option.getD_some, jsDeleteField, hdel,
      Bool.and_self, if_true]
    have hlen : ¬((jsKeys (Json.obj m)).length = 0) := by
      simpa [jsKeys, List.length_eq_zero] using hne
    rw [if_neg hlen]
    simp [jsSetField_obj, houter]

end Spectator

namespace Spectator

/-- C6 witness: a concrete document with a nonempty `mcpServers` lacking the
entry round-trips exactly through Claude Code's insert and both removes. -/
theorem upsert_then_remove_restores_document_witness :
    removeScope "/p" (some (.jsonText (upsertDoc
        (.obj [("mcpServers", Json.obj [("other-tool", Json.str "x")]), ("foo", Json.num 2)])
        "key123")))
      = ([FsEvent.write (.obj [("mcpServers", Json.obj [("other-tool", Json.str "x")]),
          ("foo", Json.num 2)])], Except.ok true) ∧
    ([("other-tool", Json.str "x")] ≠ ([] : List (String × Json)) →
      claudecodeRemove (some (.jsonText (upsertDoc
          (.obj [("mcpServers", Json.obj [("other-tool", Json.str "x")]), ("foo", Json.num 2)])
          "key123")))
        = ([FsEvent.write (.obj [("mcpServers", Json.obj [("other-tool", Json.str "x")]),
            ("foo", Json.num 2)])], Except.ok ())) :=
  upsert_then_remove_restores_document "/c" "/p" "key123" true
    [("mcpServers", Json.obj [("other-tool", Json.str "x")]), ("foo", Json.num 2)]
    [("other-tool", Json.str "x")] (by decide) (by decide)
    (upsertDoc (.obj [("mcpServers", Json.obj [("other-tool", Json.str "x")]),
      ("foo", Json.num 2)]) "key123")
    (ConfigureRet.claudeCodeRecord false true "/c") (by decide)

end Spectator

namespace Spectator

theorem cursor_flag_obj (p key : String) (d : Bool) (o m : List (String × Json))
    (hm : objGet o "mcpServers" = some (.obj m)) :
    outcomeHasOtherServers (cursorConfigure p (some (.jsonText (.obj o))) d key)
      = some (decide (((objSet m serverName (spectatorEntry key)).map Prod.fst).length > 1)) := by
  simp [outcomeHasOtherServers, retHasOtherServers, cursorConfigure, readConfig, jsGet_obj,
    hm, truthyOpt_some, truthy_obj, jsIndex_of_truthy _ (truthy_obj m) serverName,
    jsAssign_of_truthy _ (truthy_obj m) serverName, jsSetField_obj, jsKeys]

theorem claudecode_flag_obj (p key : String) (d : Bool) (o m : List (String × Json))
    (hm : objGet o "mcpServers" = some (.obj m)) :
    outcomeHasOtherServers (claudecodeConfigure p (some (.jsonText (.obj o))) d key)
      = some (decide (((m.map Prod.fst).filter (fun k => k != serverName)).length > 0)) := by
  simp [outcomeHasOtherServers, retHasOtherServers, claudecodeConfigure, jsGet_obj,
    hm, truthyOpt_some, truthy_obj, jsKeysE_of_truthy _ (truthy_obj m), jsKeys]

theorem cursor_flag_falsy (p key : String) (d : Bool) (o : List (String × Json))
    (hmf : truthyOpt (objGet o "mcpServers") = false) :
    outcomeHasOtherServers (cursorConfigure p (some (.jsonText (.obj o))) d key)
      = some false := by
  simp [outcomeHasOtherServers, retHasOtherServers, cursorConfigure, readConfig, jsGet_obj,
    hmf, truthyOpt_some, truthy_obj, jsSetField_obj, objGet_objSet_self, jsIndex, jsAssign,
    truthyOpt_none, jsKeys, objSet, objGet, serverName]

theorem claudecode_flag_falsy (p key : String) (d : Bool) (o : List (String × Json))
    (hmf : truthyOpt (objGet o "mcpServers") = false) :
    outcomeHasOtherServers (claudecodeConfigure p (some (.jsonText (.obj o))) d key)
      = some false := by
  simp [outcomeHasOtherServers, retHasOtherServers, claudecodeConfigure, jsGet_obj,
    hmf, truthyOpt_some, truthy_obj, jsSetField_obj, objGet_objSet_self, jsKeysE,
    truthyOpt_none, jsKeys, objSet, objGet, serverName]

/-- C10 (amended): the post-insert flag of Cursor/Windsurf
(`Object.keys(config.mcpServers).length > 1`) and the pre-insert flag of
Claude Code (`Object.keys(…).filter(k => k !== name).length > 0`) agree on
every document whose `mcpServers` field is falsy/absent or a JSON object
(whose keys are distinct, as any object produced by `JSON.parse` has); they
can disagree when `mcpServers` is a truthy non-object. -/
theorem hasOtherServers_flags_agree_on_object_documents (p key : String) (d : Bool)
    (o : List (String × Json)) :
    (∀ m, objGet o "mcpServers" = some (.obj m) → (m.map Prod.fst).Nodup →
       outcomeHasOtherServers (cursorConfigure p (some (.jsonText (.obj o))) d key)
         = outcomeHasOtherServers (claudecodeConfigure p (some (.jsonText (.obj o))) d key)) ∧
    (truthyOpt (objGet o "mcpServers") = false →
       outcomeHasOtherServers (cursorConfigure p (some (.jsonText (.obj o))) d key)
         = outcomeHasOtherServers (claudecodeConfigure p (some (.jsonText (.obj o))) d key)) := by
  constructor
  · intro m hm hnd
    rw [cursor_flag_obj p key d o m hm, claudecode_flag_obj p key d o m hm]
    by_cases hmem : serverName ∈ m.map Prod.fst
    · rw [map_fst_objSet_of_mem m serverName (spectatorEntry key) hmem]
      have hlen := length_filter_ne_of_nodup (m.map Prod.fst) serverName hnd hmem
      have hpos : 0 < (m.map Prod.fst).length :=
        List.length_pos.mpr (List.ne_nil_of_mem hmem)
      rw [hlen]
      congr 1
      rw [decide_eq_decide]
      omega
    · rw [map_fst_objSet_of_not_mem m serverName (spectatorEntry key) hmem]
      rw [filter_ne_of_not_mem (m.map Prod.fst) serverName hmem]
      congr 1
      rw [decide_eq_decide]
      rw [List.length_append]
      simp only [List.length_singleton]
      omega
  · intro hmf
    rw [cursor_flag_falsy p key d o hmf, claudecode_flag_falsy p key d o hmf]

/-- C10 witness: a document whose `mcpServers` object holds one unrelated
server; both flags come out `true`. -/
theorem hasOtherServers_flags_agree_witness :
    outcomeHasOtherServers (cursorConfigure "/c"
        (some (.jsonText (.obj [("mcpServers", Json.obj [("other-tool", Json.str "x")])])))
        true "key123")
      = outcomeHasOtherServers (claudecodeConfigure "/c"
        (some (.jsonText (.obj [("mcpServers", Json.obj [("other-tool", Json.str "x")])])))
        true "key123") :=
  (hasOtherServers_flags_agree_on_object_documents "/c" "key123" true
    [("mcpServers", Json.obj [("other-tool", Json.str "x")])]).1
    [("other-tool", Json.str "x")] (by decide) (by decide)

end Spectator

namespace Spectator

theorem backup_not_mem_writeConfig (d : Bool) (w : Json) :
    FsEvent.backup ∉ writeConfig d w := by
  cases d <;> simp [writeConfig]

theorem noBackupAfterWrite_writeConfig (d : Bool) (w : Json) :
    noBackupAfterWrite (writeConfig d w) = true := by
  cases d <;> simp [writeConfig, noBackupAfterWrite, isBackup]

theorem noBackupAfterWrite_backup_cons (rest : List FsEvent) :
    noBackupAfterWrite (FsEvent.backup :: rest) = noBackupAfterWrite rest := rfl

theorem noBackupAfterWrite_nil : noBackupAfterWrite [] = true := rfl

/-- The entry lookup that `configure` performs is falsy whenever the
document's `mcpServers` value is falsy or fails to be an object. -/
theorem jsGet_of_not_truthy (v : Json) (hv : truthy v = false) (k : String) :
    jsGet v k = none := by
  cases v <;> simp_all [truthy, jsGet]

theorem cursor_backup_policy (p key : String) (d : Bool) (f : Option FileContent) :
    (FsEvent.backup ∈ (cursorConfigure p f d key).events ↔ entryPresent f = true) ∧
    noBackupAfterWrite (cursorConfigure p f d key).events = true := by
  match f with
  | none =>
    constructor
    · simp [cursorConfigure, readConfig, truthyOpt_none, jsGet_obj, objGet, truthy_obj,
        jsSetField_obj, jsIndex, jsAssign, objGet_objSet_self, objSet, entryPresent,
        backup_not_mem_writeConfig]
    · simp [cursorConfigure, readConfig, truthyOpt_none, jsGet_obj, objGet, truthy_obj,
        jsSetField_obj, jsIndex, jsAssign, objGet_objSet_self, objSet,
        noBackupAfterWrite_writeConfig]
  | some .blank =>
    constructor <;> simp [cursorConfigure, readConfig, entryPresent, noBackupAfterWrite_nil]
  | some (.invalid raw) =>
    constructor <;> simp [cursorConfigure, readConfig, entryPresent, noBackupAfterWrite_nil]
  | some (.jsonText doc) =>
    by_cases ht : truthy doc = true
    · match doc, ht with
      | .obj o, _ =>
        match hmc : objGet o "mcpServers" with
        | none =>
          constructor
          · simp [cursorConfigure, readConfig, truthyOpt_some, truthyOpt_none, truthy_obj,
              jsGet_obj, hmc, jsSetField_obj, jsIndex, jsAssign, objGet_objSet_self, objSet,
              objGet, entryPresent, jsGet2, backup_not_mem_writeConfig]
          · simp [cursorConfigure, readConfig, truthyOpt_some, truthyOpt_none, truthy_obj,
              jsGet_obj, hmc, jsSetField_obj, jsIndex, jsAssign, objGet_objSet_self, objSet,
              objGet, noBackupAfterWrite_writeConfig]
        | some v =>
          by_cases htv : truthy v = true
          · by_cases hE : truthyOpt (jsGet v serverName) = true
            · constructor
              · simp [cursorConfigure, readConfig, truthyOpt_some, truthy_obj, jsGet_obj,
                  hmc, htv, jsIndex_of_truthy v htv, jsAssign_of_truthy v htv, hE,
                  backupConfig, entryPresent, jsGet2, backup_not_mem_writeConfig]
              · simp [cursorConfigure, readConfig, truthyOpt_some, truthy_obj, jsGet_obj,
                  hmc, htv, jsIndex_of_truthy v htv, jsAssign_of_truthy v htv, hE,
                  backupConfig, noBackupAfterWrite_backup_cons, noBackupAfterWrite_writeConfig]
            · constructor
              · simp [cursorConfigure, readConfig, truthyOpt_some, truthy_obj, jsGet_obj,
                  hmc, htv, jsIndex_of_truthy v htv, jsAssign_of_truthy v htv,
                  Bool.eq_false_iff.mpr hE, entryPresent, jsGet2,
                  backup_not_mem_writeConfig]
              · simp [cursorConfigure, readConfig, truthyOpt_some, truthy_obj, jsGet_obj,
                  hmc, htv, jsIndex_of_truthy v htv, jsAssign_of_truthy v htv,
                  Bool.eq_false_iff.mpr hE, noBackupAfterWrite_writeConfig]
          · have hvf := Bool.eq_false_iff.mpr htv
            constructor
            · simp [cursorConfigure, readConfig, truthyOpt_some, truthyOpt_none, truthy_obj,
                jsGet_obj, hmc, hvf, jsSetField_obj, jsIndex, jsAssign, objGet_objSet_self,
                objSet, objGet, entryPresent, jsGet2, jsGet_of_not_truthy v hvf,
                backup_not_mem_writeConfig]
            · simp [cursorConfigure, readConfig, truthyOpt_some, truthyOpt_none, truthy_obj,
                jsGet_obj, hmc, hvf, jsSetField_obj, jsIndex, jsAssign, objGet_objSet_self,
                objSet, objGet, noBackupAfterWrite_writeConfig]
      | .bool true, _ =>
        constructor <;>
          simp [cursorConfigure, readConfig, truthyOpt_some, truthyOpt_none, truthy, jsGet,
            jsSetField, jsIndex, entryPresent, jsGet2, noBackupAfterWrite_nil]
      | .num n, ht =>
        have hn : ¬n = 0 := by simpa [truthy] using ht
        constructor <;>
          simp [cursorConfigure, readConfig, truthyOpt_some, truthyOpt_none, truthy, hn,
            jsGet, jsSetField, jsIndex, entryPresent, jsGet2, noBackupAfterWrite_nil]
      | .str s, ht =>
        have hs : ¬s = "" := by simpa [truthy] using ht
        constructor <;>
          simp [cursorConfigure, readConfig, truthyOpt_some, truthyOpt_none, truthy, hs,
            jsGet, jsSetField, jsIndex, entryPresent, jsGet2, noBackupAfterWrite_nil]
      | .arr xs, _ =>
        constructor <;>
          simp [cursorConfigure, readConfig, truthyOpt_some, truthyOpt_none, truthy, jsGet,
            jsSetField, jsIndex, entryPresent, jsGet2, noBackupAfterWrite_nil]
    · have htf := Bool.eq_false_iff.mpr ht
      constructor
      · simp [cursorConfigure, readConfig, truthyOpt_some, truthyOpt_none, htf, truthy_obj,
          jsGet_obj, objGet, jsSetField_obj, jsIndex, jsAssign, objGet_objSet_self, objSet,
          entryPresent, jsGet2, jsGet_of_not_truthy doc htf, backup_not_mem_writeConfig]
      · simp [cursorConfigure, readConfig, truthyOpt_some, truthyOpt_none, htf, truthy_obj,
          jsGet_obj, objGet, jsSetField_obj, jsIndex, jsAssign, objGet_objSet_self, objSet,
          noBackupAfterWrite_writeConfig]

end Spectator

namespace Spectator

theorem vscode_backup_policy (p key : String) (d : Bool) (f : Option FileContent) :
    (FsEvent.backup ∈ (vscodeConfigure p f d key).events ↔ f.isSome = true) ∧
    noBackupAfterWrite (vscodeConfigure p f d key).events = true := by
  match f with
  | none =>
    constructor
    · simp [vscodeConfigure, readConfig, backupConfig, truthyOpt_none, jsGet_obj, objGet,
        truthy_obj, jsSetField_obj, jsAssign, objGet_objSet_self, objSet,
        backup_not_mem_writeConfig]
    · simp [vscodeConfigure, readConfig, backupConfig, truthyOpt_none, jsGet_obj, objGet,
        truthy_obj, jsSetField_obj, jsAssign, objGet_objSet_self, objSet,
        noBackupAfterWrite_writeConfig]
  | some fc =>
    constructor
    · unfold vscodeConfigure
      simp only [backupConfig, Option.isSome_some, iff_true]
      split
      · simp
      · split
        · simp
        · simp
    · unfold vscodeConfigure
      simp only [backupConfig]
      split
      · simp [noBackupAfterWrite]
      · split
        · simp [noBackupAfterWrite]
        · simp [noBackupAfterWrite_backup_cons, noBackupAfterWrite_writeConfig]

/-- Every Claude Code configure trace is `mkdir?` alone (on an exception) or
`mkdir?` followed by a single write. -/
theorem claudecode_events_cases (p key : String) (d : Bool) (f : Option FileContent) :
    (claudecodeConfigure p f d key).events = (if d then [] else [FsEvent.mkdir]) ∨
    ∃ w, (claudecodeConfigure p f d key).events
      = (if d then [] else [FsEvent.mkdir]) ++ [FsEvent.write w] := by
  unfold claudecodeConfigure
  rcases f with _ | fc
  · right
    refine ⟨freshConfigDoc key, ?_⟩
    simp [freshConfigDoc, jsGet_obj, objGet, truthyOpt_none, truthy_obj, jsSetField_obj,
      objSet, objGet_objSet_self, jsKeysE]
  · cases fc with
    | blank =>
      right
      refine ⟨freshConfigDoc key, ?_⟩
      simp [freshConfigDoc, jsGet_obj, objGet, truthyOpt_none, truthy_obj, jsSetField_obj,
        objSet, objGet_objSet_self, jsKeysE]
    | invalid raw => left; rfl
    | jsonText doc =>
      match hkk : jsKeysE (jsGet (if truthyOpt (jsGet doc "mcpServers") = true then doc
          else jsSetField doc "mcpServers" (Json.obj [])) "mcpServers") with
      | .error e =>
        left
        simp only [hkk]
      | .ok ks =>
        right
        refine ⟨jsSetField (if truthyOpt (jsGet doc "mcpServers") = true then doc
            else jsSetField doc "mcpServers" (Json.obj [])) "mcpServers"
          (jsSetField ((jsGet (if truthyOpt (jsGet doc "mcpServers") = true then doc
              else jsSetField doc "mcpServers" (Json.obj [])) "mcpServers").getD Json.null)
            serverName (spectatorEntry key)), ?_⟩
        simp only [hkk]

theorem claudecode_backup_policy (p key : String) (d : Bool) (f : Option FileContent) :
    FsEvent.backup ∉ (claudecodeConfigure p f d key).events ∧
    noBackupAfterWrite (claudecodeConfigure p f d key).events = true := by
  rcases claudecode_events_cases p key d f with h | ⟨w, h⟩ <;> rw [h] <;> constructor
  · cases d <;> simp
  · cases d <;> simp [noBackupAfterWrite, isBackup]
  · cases d <;> simp
  · cases d <;> simp [noBackupAfterWrite, isBackup]

end Spectator

namespace Spectator

/-- C2 (amended): the backup rule is per-adapter — Cursor/Windsurf back up
iff the file exists AND already holds a truthy entry; VS Code/Claude
Desktop/Cline back up iff the file exists at all (even without the entry);
Claude Code never backs up; in every trace each backup precedes every write. -/
theorem backup_iff_policy_per_adapter (configPath apiKey : String) (dirExists : Bool)
    (file : Option FileContent) :
    (FsEvent.backup ∈ (cursorConfigure configPath file dirExists apiKey).events
       ↔ entryPresent file = true) ∧
    (FsEvent.backup ∈ (vscodeConfigure configPath file dirExists apiKey).events
       ↔ file.isSome = true) ∧
    FsEvent.backup ∉ (claudecodeConfigure configPath file dirExists apiKey).events ∧
    noBackupAfterWrite (cursorConfigure configPath file dirExists apiKey).events = true ∧
    noBackupAfterWrite (vscodeConfigure configPath file dirExists apiKey).events = true ∧
    noBackupAfterWrite (claudecodeConfigure configPath file dirExists apiKey).events = true :=
  ⟨(cursor_backup_policy configPath apiKey dirExists file).1,
   (vscode_backup_policy configPath apiKey dirExists file).1,
   (claudecode_backup_policy configPath apiKey dirExists file).1,
   (cursor_backup_policy configPath apiKey dirExists file).2,
   (vscode_backup_policy configPath apiKey dirExists file).2,
   (claudecode_backup_policy configPath apiKey dirExists file).2⟩

theorem jsGet2_truthy_parts (doc : Json)
    (hE : truthyOpt (jsGet2 doc "mcpServers" serverName) = true) :
    truthy doc = true ∧ truthyOpt (jsGet doc "mcpServers") = true := by
  cases doc with
  | obj o =>
    refine ⟨rfl, ?_⟩
    unfold jsGet2 at hE
    rcases hv : jsGet (Json.obj o) "mcpServers" with _ | v
    · rw [hv] at hE
      simp [truthyOpt] at hE
    · rw [hv] at hE
      cases v <;> simp_all [jsGet, truthyOpt, truthy]
  | null => simp [jsGet2, jsGet, truthyOpt] at hE
  | bool b => simp [jsGet2, jsGet, truthyOpt] at hE
  | num n => simp [jsGet2, jsGet, truthyOpt] at hE
  | str s => simp [jsGet2, jsGet, truthyOpt] at hE
  | arr xs => simp [jsGet2, jsGet, truthyOpt] at hE

/-- Running `removeScope` on a parseable file: deletes-and-rewrites exactly when the
entry is truthy, reports `false` silently otherwise. -/
theorem removeScope_parsed (scopePath : String) (file : Option FileContent)
    (h : parsesOrMissing file = true) :
    (removeScope scopePath file).2 = Except.ok (entryPresent file) ∧
    (entryPresent file = false → (removeScope scopePath file).1 = []) ∧
    (∀ e ∈ (removeScope scopePath file).1, ∃ w, e = FsEvent.write w) := by
  rcases file with _ | fc
  · exact ⟨rfl, fun _ => rfl, by simp [removeScope]⟩
  · cases fc with
    | blank => simp [parsesOrMissing] at h
    | invalid raw => simp [parsesOrMissing] at h
    | jsonText doc =>
      by_cases hE : truthyOpt (jsGet2 doc "mcpServers" serverName) = true
      · obtain ⟨h1, h2⟩ := jsGet2_truthy_parts doc hE
        refine ⟨?_, ?_, ?_⟩
        · simp [removeScope, readConfig, h1, h2, hE, entryPresent, writeConfig]
        · intro hfalse
          rw [entryPresent] at hfalse
          rw [hE] at hfalse
          cases hfalse
        · simp [removeScope, readConfig, h1, h2, hE, writeConfig]
      · have hE' := Bool.eq_false_iff.mpr hE
        refine ⟨?_, ?_, ?_⟩
        · simp [removeScope, readConfig, hE', entryPresent]
        · intro _
          simp [removeScope, readConfig, hE']
        · simp [removeScope, readConfig, hE']

theorem claudecodeRemove_parsed (file : Option FileContent)
    (h : parsesOrMissing file = true) (hnn : isNullDoc file = false) :
    (claudecodeRemove file).2 = Except.ok () ∧
    (entryPresent file = false → (claudecodeRemove file).1 = []) ∧
    (∀ e ∈ (claudecodeRemove file).1, ∃ w, e = FsEvent.write w) := by
  rcases file with _ | fc
  · exact ⟨rfl, fun _ => rfl, by simp [claudecodeRemove]⟩
  · cases fc with
    | blank => simp [parsesOrMissing] at h
    | invalid raw => simp [parsesOrMissing] at h
    | jsonText doc =>
      have hne : doc ≠ Json.null := by
        intro hd
        subst hd
        simp [isNullDoc] at hnn
      by_cases hE : truthyOpt (jsGet2 doc "mcpServers" serverName) = true
      · obtain ⟨h1, h2⟩ := jsGet2_truthy_parts doc hE
        refine ⟨?_, ?_, ?_⟩
        · simp [claudecodeRemove, jsIndex_of_truthy doc h1, h2, hE]
        · intro hfalse
          rw [entryPresent] at hfalse
          rw [hE] at hfalse
          cases hfalse
        · by_cases hlen : (jsKeys (jsDeleteField ((jsGet doc "mcpServers").getD .null)
              serverName)).length = 0 <;>
            simp [claudecodeRemove, jsIndex_of_truthy doc h1, h2, hE, hlen]
      · have hE' := Bool.eq_false_iff.mpr hE
        refine ⟨?_, ?_, ?_⟩
        · simp [claudecodeRemove, jsIndex_of_ne_null doc hne, hE', Bool.and_false]
        · intro _
          simp [claudecodeRemove, jsIndex_of_ne_null doc hne, hE', Bool.and_false]
        · simp [claudecodeRemove, jsIndex_of_ne_null doc hne, hE', Bool.and_false]

/-- C8 (amended): when every configuration file that exists parses as JSON
and none holds the entry, the Cursor/Windsurf-style two-scope `remove` (VS
Code identical) returns its falsy result, performs no write, and raises no
error; `ClaudeCode.remove` does the same provided the parsed document is
additionally not the JSON value `null` — its unguarded `config.mcpServers`
read makes it throw a wrapped TypeError on a file containing `null` (final
conjunct), where the guarded loops stay silent.  When a removal does occur
the only events are whole-file rewrites — the file is never unlinked.  (An
existing file that is NOT valid JSON makes every `remove` throw; see the
counterexample.) -/
theorem remove_without_entry_is_silent_noop (gPath pPath : String)
    (g p f : Option FileContent)
    (hg : parsesOrMissing g = true) (hp : parsesOrMissing p = true)
    (hf : parsesOrMissing f = true) (hfn : isNullDoc f = false) :
    (cursorRemove gPath pPath g p).2 = Except.ok (entryPresent g || entryPresent p) ∧
    (entryPresent g = false → entryPresent p = false →
      (cursorRemove gPath pPath g p).1 = []) ∧
    FsEvent.unlink ∉ (cursorRemove gPath pPath g p).1 ∧
    (claudecodeRemove f).2 = Except.ok () ∧
    (entryPresent f = false → (claudecodeRemove f).1 = []) ∧
    FsEvent.unlink ∉ (claudecodeRemove f).1 ∧
    claudecodeRemove (some (FileContent.jsonText Json.null))
      = ([], Except.error ("Failed to remove configuration: "
          ++ ("TypeError: Cannot read properties of null (reading " ++ "mcpServers" ++ ")"))) := by
  obtain ⟨hg2, hgE, hgW⟩ := removeScope_parsed gPath g hg
  obtain ⟨hp2, hpE, hpW⟩ := removeScope_parsed pPath p hp
  obtain ⟨hf2, hfE, hfW⟩ := claudecodeRemove_parsed f hf hfn
  have hgpair : removeScope gPath g = ((removeScope gPath g).1, Except.ok (entryPresent g)) := by
    rw [← hg2]
  have hppair : removeScope pPath p = ((removeScope pPath p).1, Except.ok (entryPresent p)) := by
    rw [← hp2]
  have hcr : cursorRemove gPath pPath g p
      = ((removeScope gPath g).1 ++ (removeScope pPath p).1,
         Except.ok (entryPresent g || entryPresent p)) := by
    unfold cursorRemove
    rw [hgpair, hppair]
  refine ⟨by rw [hcr], ?_, ?_, hf2, hfE, ?_, rfl⟩
  · intro hge hpe
    rw [hcr]
    simp [hgE hge, hpE hpe]
  · rw [hcr]
    intro hmem
    rcases List.mem_append.mp hmem with hm | hm
    · obtain ⟨w, hw⟩ := hgW _ hm
      cases hw
    · obtain ⟨w, hw⟩ := hpW _ hm
      cases hw
  · intro hmem
    obtain ⟨w, hw⟩ := hfW _ hmem
    cases hw

/-- C8 witness: concrete absent files for every scope. -/
theorem remove_without_entry_is_silent_noop_witness :
    (cursorRemove "/g" "/p" none none).2 = Except.ok (entryPresent none || entryPresent none) ∧
    (claudecodeRemove none).2 = Except.ok () :=
  ⟨(remove_without_entry_is_silent_noop "/g" "/p" none none none rfl rfl rfl rfl).1,
   (remove_without_entry_is_silent_noop "/g" "/p" none none none rfl rfl rfl rfl).2.2.2.1⟩

end Spectator
